import Mathlib

/-!
Shallow embedding of the draft-state accounting and recommendation engine
(`src/team_tracker.py`, `src/player_pool.py`) of the fantasy-football auction
draft assistant, together with theorems settling the specification claims.

DataFrames are embedded as lists of records; spreadsheet cells that may hold
raw strings, numbers or missing values are an inductive `Cell`; prices and
scores are rationals; Python dicts become association lists (lookup takes the
first matching key, iteration follows list order, like insertion order of a
dict).  The in-place column assignment performed by `summarize_opponents` is
made explicit by returning the post-call ledger alongside the result, and the
`KeyError` raised by sorting a column-less empty frame is an `Except.error`.
-/

namespace FFDraft

/-- Cell of a spreadsheet-backed column: a raw string, a numeric value, or a
missing value (pandas NaN). -/
inductive Cell where
  | str : String → Cell
  | num : ℚ → Cell
  | nan : Cell
deriving DecidableEq, Repr

/-- Row of the draft ledger (draft board): columns Player, Position, Price,
Drafted By.  Price may arrive as a raw string. -/
structure LedgerRow where
  player : String
  position : String
  price : Cell
  draftedBy : String
deriving DecidableEq, Repr

/-- Row of the canonical player pool as consumed by the tracker functions:
columns Player, Team, Position, Bye_Week. -/
structure PoolRow where
  player : String
  team : String
  position : String
  byeWeek : String
deriving DecidableEq, Repr

/-- Python `str.strip`: drop leading and trailing whitespace. -/
def pyStrip (s : String) : String :=
  ⟨(((s.data.dropWhile Char.isWhitespace).reverse).dropWhile Char.isWhitespace).reverse⟩

/-- Python `str.lower`: lowercase every character. -/
def pyLower (s : String) : String :=
  ⟨s.data.map Char.toLower⟩

/-- Normalized player identity used as the availability join key:
`.str.strip().str.lower()`. -/
def normName (s : String) : String := pyLower (pyStrip s)

/-- Normalized player names appearing in the ledger (the `drafted_players`
list built inside `get_available_players`). -/
def drafted_players (draft_board : List LedgerRow) : List String :=
  draft_board.map (fun r => normName r.player)

/-- Embedding of `get_available_players`: drop every pool row whose normalized
player name occurs among the normalized ledger player names. -/
def get_available_players (player_pool : List PoolRow) (draft_board : List LedgerRow) :
    List PoolRow :=
  player_pool.filter (fun p => !((drafted_players draft_board).contains (normName p.player)))

/-- Concrete pool row used to witness the availability join. -/
def bobPoolRow : PoolRow := ⟨"Bob Smith", "KC", "WR", "7"⟩

/-- Concrete ledger row whose player name matches `bobPoolRow` only after
trimming and case folding. -/
def bobLedgerRow : LedgerRow := ⟨" bob smith ", "WR", Cell.num 12, "Alice"⟩

/-- Test whether a cell holds a numeric value. -/
def isNum : Cell → Bool
  | Cell.num _ => true
  | _ => false

/-- Test whether a cell holds a raw string. -/
def isStr : Cell → Bool
  | Cell.str _ => true
  | _ => false

/-- Numeric value of a cell, defaulting to 0. -/
def numVal : Cell → ℚ
  | Cell.num q => q
  | _ => 0

/-- String value of a cell, defaulting to the empty string. -/
def strVal : Cell → String
  | Cell.str s => s
  | _ => ""

/-- Pandas `Series.sum()` over an object-dtype column as used on
`my_picks["Price"]`: NaN cells are skipped; an all-numeric column sums (an
empty one to 0); an all-string column concatenates; a mixed column raises
`TypeError`. -/
def objSum (cells : List Cell) : Except String Cell :=
  let vs := cells.filter (fun c => !(c == Cell.nan))
  if vs.all isNum then Except.ok (Cell.num ((vs.map numVal).foldl (fun a q => a + q) 0))
  else if vs.all isStr then Except.ok (Cell.str ((vs.map strVal).foldl (fun a s => a ++ s) ""))
  else Except.error "TypeError"

/-- Python `budget - total_spent` on the result of the object sum: defined only
when the sum is numeric (or propagates the earlier failure). -/
def budgetMinus (budget : ℚ) : Except String Cell → Except String Cell
  | Except.ok (Cell.num q) => Except.ok (Cell.num (budget - q))
  | Except.ok (Cell.str _) => Except.error "TypeError"
  | Except.ok Cell.nan => Except.ok Cell.nan
  | Except.error e => Except.error e

/-- Pandas `Series.value_counts().to_dict()`: distinct values with their
multiplicities, ordered by descending count (stable over first occurrence). -/
def valueCounts (xs : List String) : List (String × Nat) :=
  ((xs.eraseDups).map (fun k => (k, xs.count k))).mergeSort
    (fun a b => decide (b.2 ≤ a.2))

deriving instance DecidableEq for Except

/-- Result bundle of `get_my_team`: roster, spent, remaining budget and
position counts. -/
structure TeamState where
  roster : List LedgerRow
  spent : Except String Cell
  remainingBudget : Except String Cell
  positionCounts : List (String × Nat)
deriving DecidableEq

/-- Embedding of `get_my_team`: select the caller's picks by case-folded (not
trimmed) manager name, then derive spend, remaining budget and position
counts from that selection. -/
def get_my_team (draft_board : List LedgerRow) (manager_name : String) (budget : ℚ) :
    TeamState :=
  let my_picks := draft_board.filter (fun r => pyLower r.draftedBy == pyLower manager_name)
  let total_spent := objSum (my_picks.map (fun r => r.price))
  { roster := my_picks
    spent := total_spent
    remainingBudget := budgetMinus budget total_spent
    positionCounts := valueCounts (my_picks.map (fun r => r.position)) }

/-- Concrete ledger row drafted by the lowercase manager name "bob". -/
def c4Row : LedgerRow := ⟨"Alpha", "RB", Cell.num 10, "bob"⟩

/-- Python `dict.get(k, d)` over an association list: value of the first entry
with the given key, else the default. -/
def dictGetD {α : Type} (l : List (String × α)) (k : String) (d : α) : α :=
  match l.find? (fun e => e.1 == k) with
  | some e => e.2
  | none => d

/-- Body of the `prioritize_positions` loop for one target-build entry
`(pos, target)`: `need = max(0, target - drafted)`, `weight =
position_weights.get(pos, 0.5)`, producing `(pos, need * weight)`. -/
def gapScore (position_counts : List (String × ℤ)) (position_weights : List (String × ℚ))
    (pt : String × ℤ) : String × ℚ :=
  let drafted := dictGetD position_counts pt.1 0
  let need := max 0 (pt.2 - drafted)
  let weight := dictGetD position_weights pt.1 (1 / 2)
  (pt.1, (need : ℚ) * weight)

/-- Embedding of `prioritize_positions`: score every target-build entry, then
`dict(sorted(gaps.items(), key=score, reverse=True))` — a stable sort by
descending score. -/
def prioritize_positions (position_counts : List (String × ℤ))
    (target_build : List (String × ℤ)) (position_weights : List (String × ℚ)) :
    List (String × ℚ) :=
  let gaps := target_build.map (gapScore position_counts position_weights)
  gaps.mergeSort (fun a b => decide (b.2 ≤ a.2))

/-- Concrete position counts for the prioritization witness. -/
def c7Counts : List (String × ℤ) := [("QB", 1)]

/-- Concrete target build for the prioritization witness. -/
def c7Target : List (String × ℤ) := [("QB", 1), ("RB", 2)]

/-- Concrete nonnegative position weights for the prioritization witness. -/
def c7Weights : List (String × ℚ) := [("RB", 1)]

/-- Positions the caller has already filled to target, as computed in the
drain branch of `suggest_nominations`: the target-build keys whose drafted
count meets or exceeds the target count. -/
def positionsFilled (my_position_counts target_build : List (String × ℤ)) : List String :=
  (target_build.map Prod.fst).filter
    (fun pos => decide (dictGetD target_build pos 0 ≤ dictGetD my_position_counts pos 0))

/-- Embedding of the "drain" branch of `suggest_nominations`: restrict the
available pool to filled positions, fall back to the entire pool when that
restriction is empty, and return its head. -/
def suggest_nominations_drain (available_pool : List PoolRow)
    (my_position_counts target_build : List (String × ℤ)) (max_suggestions : Nat) :
    List PoolRow :=
  let pool := available_pool.filter
    (fun p => (positionsFilled my_position_counts target_build).contains p.position)
  (if pool.isEmpty then available_pool else pool).take max_suggestions

/-- Low-priority positions of the "decoy" branch: priority score below 0.5. -/
def decoyPositions (priority_positions : List (String × ℚ)) : List String :=
  (priority_positions.filter (fun e => decide (e.2 < 1 / 2))).map Prod.fst

/-- Candidate slice of the "decoy" branch: available players at low-priority
positions, truncated to the first 100. -/
def decoyCandidates (available_pool : List PoolRow)
    (priority_positions : List (String × ℚ)) : List PoolRow :=
  (available_pool.filter
    (fun p => (decoyPositions priority_positions).contains p.position)).take 100

/-- Pool the "decoy" branch samples from: the candidate slice, or the first 100
of the entire available pool when the slice is empty. -/
def decoyPool (available_pool : List PoolRow)
    (priority_positions : List (String × ℚ)) : List PoolRow :=
  if (decoyCandidates available_pool priority_positions).isEmpty then available_pool.take 100
  else decoyCandidates available_pool priority_positions

/-- Pandas `DataFrame.sample(n)` without replacement: the result holds exactly
`n` of the frame's rows, in some order — a permutation of a sublist. -/
def IsSample (pool s : List PoolRow) (n : Nat) : Prop :=
  s.length = n ∧ ∃ t, t.Sublist pool ∧ s.Perm t

/-- Embedding of the "decoy" branch of `suggest_nominations` as a relation over
its random output: `pool.sample(n=min(max_suggestions, len(pool)))` applied to
the decoy pool. -/
def suggest_nominations_decoy (available_pool : List PoolRow)
    (priority_positions : List (String × ℚ)) (max_suggestions : Nat)
    (s : List PoolRow) : Prop :=
  IsSample (decoyPool available_pool priority_positions) s
    (min max_suggestions (decoyPool available_pool priority_positions).length)

/-- Concrete running back used by the drain counterexample. -/
def c5RbRow : PoolRow := ⟨"Rob Back", "SF", "RB", "9"⟩

/-- Concrete quarterback used by the drain witness. -/
def c5QbRow : PoolRow := ⟨"Quin Star", "BUF", "QB", "12"⟩

/-- Concrete running back used by the decoy counterexample and witness. -/
def c6Row : PoolRow := ⟨"Ray Back", "DAL", "RB", "6"⟩

/-- Raw player-pool row after the column rename and selection of
`load_player_pool`: PLAYER NAME (may be missing), TEAM, POS, BYE WEEK. -/
structure RawPoolRow where
  playerName : Option String
  team : String
  pos : String
  byeWeek : String
deriving DecidableEq, Repr

/-- Canonical player record produced by `load_player_pool`: the position is the
extracted uppercase run, which may be undefined (NaN). -/
structure PlayerRec where
  player : Option String
  team : String
  position : Option String
  byeWeek : String
deriving DecidableEq, Repr

/-- Python `Series.str.extract(r'([A-Z]+)')` on one string: the first maximal
run of uppercase letters, or NaN when the string holds no uppercase letter. -/
def extractUpper (s : String) : Option String :=
  let run := (s.data.dropWhile (fun c => !c.isUpper)).takeWhile Char.isUpper
  if run.isEmpty then none else some ⟨run⟩

/-- Normalization of one raw pool row: keep the name, extract the position. -/
def normalizeRow (r : RawPoolRow) : PlayerRec :=
  ⟨r.playerName, r.team, extractUpper r.pos, r.byeWeek⟩

/-- Embedding of `load_player_pool` after the I/O and column rename: extract
positions, then `dropna(subset=['Player'])` — only rows with a missing player
name are dropped. -/
def load_player_pool (rows : List RawPoolRow) : List PlayerRec :=
  (rows.map normalizeRow).filter (fun r => r.player.isSome)

/-- Concrete raw row whose position string holds no uppercase letter. -/
def c3RawRow : RawPoolRow := ⟨some "Joe Quarter", "KC", "qb1", "10"⟩

/-- Count of digit characters as a natural number. -/
def digitsVal (cs : List Char) : Nat :=
  cs.foldl (fun a c => a * 10 + (c.toNat - 48)) 0

/-- Decimal numeral parser modelling what `pd.to_numeric` accepts: optional
sign, digits, optional fractional part, surrounding whitespace ignored. -/
def parseNum (s : String) : Option ℚ :=
  let cs := (pyStrip s).data
  let sign : ℚ := if cs.head? = some '-' then -1 else 1
  let cs2 := if cs.head? = some '-' ∨ cs.head? = some '+' then cs.tail else cs
  let intPart := cs2.takeWhile Char.isDigit
  let rest := cs2.dropWhile Char.isDigit
  match rest with
  | [] => if intPart.isEmpty then none else some (sign * (digitsVal intPart : ℚ))
  | '.' :: frac =>
      if frac.all Char.isDigit && !(intPart.isEmpty && frac.isEmpty) then
        some (sign * ((digitsVal intPart : ℚ) +
          (digitsVal frac : ℚ) / ((10 : ℚ) ^ frac.length)))
      else none
  | _ => none

/-- Pandas `pd.to_numeric(col, errors="coerce")` on one cell: numbers pass
through, parseable strings become numbers, everything else becomes NaN. -/
def toNumeric : Cell → Cell
  | Cell.str s =>
      match parseNum s with
      | some q => Cell.num q
      | none => Cell.nan
  | Cell.num q => Cell.num q
  | Cell.nan => Cell.nan

/-- Pandas numeric `Series.sum()` with the default skipna: sum of the numeric
cells, 0 when none remain. -/
def numSum (cells : List Cell) : ℚ :=
  (cells.filterMap (fun c =>
    match c with
    | Cell.num q => some q
    | _ => none)).foldl (fun a q => a + q) 0

/-- One row of the opponent summary table. -/
structure OppSummary where
  manager : String
  spent : ℚ
  remaining : ℚ
  playersDrafted : Nat
deriving DecidableEq, Repr

/-- Group keys of `draft_board.groupby("Drafted By")`: the distinct manager
names, sorted ascending as pandas does. -/
def sortedManagers (draft_board : List LedgerRow) : List String :=
  ((draft_board.map (fun r => r.draftedBy)).eraseDups).mergeSort
    (fun a b => !decide (b < a))

/-- Embedding of `summarize_opponents`.  The in-place assignment
`draft_board["Price"] = pd.to_numeric(draft_board["Price"], errors="coerce")`
mutates the caller's ledger, so the function returns the post-call ledger
alongside its result.  When every pick belongs to the caller (or the ledger is
empty) the summary list is empty, `pd.DataFrame(summaries)` has no columns,
and `sort_values(by="Remaining")` raises a `KeyError`, embedded as
`Except.error`. -/
def summarize_opponents (draft_board : List LedgerRow) (my_name : String)
    (starting_budget : ℚ) : List LedgerRow × Except String (List OppSummary) :=
  let coerced := draft_board.map (fun r => ⟨r.player, r.position, toNumeric r.price, r.draftedBy⟩)
  let summaries := (sortedManagers draft_board).filterMap (fun m =>
    if normName m = normName my_name then none
    else
      let group := coerced.filter (fun r => r.draftedBy == m)
      let total_spent := numSum (group.map (fun r => r.price))
      some ⟨m, total_spent, starting_budget - total_spent, group.length⟩)
  let result := if summaries.isEmpty then Except.error "KeyError: Remaining"
    else Except.ok (summaries.mergeSort (fun a b => decide (b.remaining ≤ a.remaining)))
  (coerced, result)

/-- Concrete ledger row whose price is an unparseable string, drafted by an
opponent. -/
def c2Row : LedgerRow := ⟨"Al Pha", "RB", Cell.str "abc", "X"⟩

/-- Concrete ledger row drafted by the caller "Me". -/
def c1Row : LedgerRow := ⟨"Be Ta", "WR", Cell.num 7, "Me"⟩

/-- C8: the availability filter is idempotent: filtering an already filtered
pool against the same ledger returns it unchanged. -/
theorem get_available_players_idempotent (pool : List PoolRow) (board : List LedgerRow) :
    get_available_players (get_available_players pool board) board =
      get_available_players pool board := by
  simp [get_available_players, List.filter_filter]

/-- C9: a pool entry is excluded from the available players whenever the ledger
contains a player name equal to it after trimming surrounding whitespace and
case folding. -/
theorem get_available_players_excludes_match (pool : List PoolRow) (board : List LedgerRow)
    (p : PoolRow) (h : ∃ d ∈ board, normName d.player = normName p.player) :
    p ∉ get_available_players pool board := by
  intro hmem
  obtain ⟨d, hd, he⟩ := h
  have hpred := List.of_mem_filter hmem
  have hin : ((drafted_players board).contains (normName p.player)) = true :=
    List.elem_iff.mpr (List.mem_map.mpr ⟨d, hd, he⟩)
  rw [hin] at hpred
  simp at hpred

/-- Witness for C9 at a concrete pool and ledger: the ledger's " bob smith "
knocks out the pool's "Bob Smith". -/
theorem get_available_players_excludes_match_witness :
    bobPoolRow ∉ get_available_players [bobPoolRow] [bobLedgerRow] :=
  get_available_players_excludes_match [bobPoolRow] [bobLedgerRow] bobPoolRow
    ⟨bobLedgerRow, by decide, by decide⟩

/-- C10: the available players are a sub-sequence of the input pool, with every
surviving record unchanged and in the pool's original order. -/
theorem get_available_players_sublist (pool : List PoolRow) (board : List LedgerRow) :
    (get_available_players pool board).Sublist pool :=
  List.filter_sublist pool

/-- C4 counterexample: the manager names " bob " and "bob" differ only in
surrounding whitespace, yet `get_my_team` selects different roster subsets,
because the code lowercases but never strips the manager name. -/
theorem get_my_team_not_whitespace_insensitive :
    normName " bob " = normName "bob" ∧
      (get_my_team [c4Row] " bob " 200).roster ≠ (get_my_team [c4Row] "bob" 200).roster := by
  constructor
  · decide
  · decide

/-- C4 amended: `get_my_team` matches the manager name case-insensitively
(whitespace is significant): names with equal lowercasings select the same
result. -/
theorem get_my_team_case_insensitive (board : List LedgerRow) (n1 n2 : String) (budget : ℚ)
    (h : pyLower n1 = pyLower n2) :
    get_my_team board n1 budget = get_my_team board n2 budget := by
  simp only [get_my_team, h]

/-- Witness for the amended C4 at a concrete ledger and the names "BOB" and
"bob". -/
theorem get_my_team_case_insensitive_witness :
    pyLower "BOB" = pyLower "bob" ∧
      get_my_team [c4Row] "BOB" 200 = get_my_team [c4Row] "bob" 200 :=
  ⟨by decide, get_my_team_case_insensitive [c4Row] "BOB" "bob" 200 (by decide)⟩

/-- C7 counterexample: with a negative weight in the weights mapping,
`prioritize_positions` returns a negative score (the code multiplies the
nonnegative need by whatever weight the mapping holds). -/
theorem prioritize_positions_negative_score :
    ("RB", (-1 : ℚ)) ∈ prioritize_positions [] [("RB", 1)] [("RB", -1)] ∧ ((-1 : ℚ) < 0) := by
  constructor
  · norm_num [prioritize_positions, List.mem_mergeSort, gapScore, dictGetD]
  · norm_num

/-- C7 amended: assuming every weight in the mapping is nonnegative,
`prioritize_positions` never returns a negative score; every entry is scored
as `max(0, target - drafted) * weight` (default weight 1/2), the result is a
permutation of the scored target build holding score 0 whenever the gap is
nonpositive, it is ordered by descending score, and ties keep the order the
positions occur in the target build (equal-score entries form a sublist in
target order). -/
theorem prioritize_positions_spec (counts target : List (String × ℤ))
    (weights : List (String × ℚ)) (hw : ∀ w ∈ weights, 0 ≤ w.2) :
    (∀ e ∈ prioritize_positions counts target weights, 0 ≤ e.2) ∧
    (prioritize_positions counts target weights).Perm
      (target.map (gapScore counts weights)) ∧
    (prioritize_positions counts target weights).Pairwise
      (fun a b => b.2 ≤ a.2) ∧
    (∀ pt ∈ target, pt.2 - dictGetD counts pt.1 0 ≤ 0 →
      (pt.1, (0 : ℚ)) ∈ prioritize_positions counts target weights) ∧
    (∀ s : ℚ, ((target.map (gapScore counts weights)).filter
      (fun e => decide (e.2 = s))).Sublist (prioritize_positions counts target weights)) := by
  have hw0 : ∀ pos : String, (0 : ℚ) ≤ dictGetD weights pos (1 / 2) := by
    intro pos
    unfold dictGetD
    cases hfind : weights.find? (fun e => e.1 == pos) with
    | none => norm_num
    | some w => exact hw w (List.mem_of_find?_eq_some hfind)
  have hscore : ∀ pt : String × ℤ, 0 ≤ (gapScore counts weights pt).2 := by
    intro pt
    have h1 : (0 : ℤ) ≤ max 0 (pt.2 - dictGetD counts pt.1 0) := le_max_left _ _
    exact mul_nonneg (by exact_mod_cast h1) (hw0 pt.1)
  have htrans : ∀ a b c : String × ℚ,
      (fun a b : String × ℚ => decide (b.2 ≤ a.2)) a b →
      (fun a b : String × ℚ => decide (b.2 ≤ a.2)) b c →
      (fun a b : String × ℚ => decide (b.2 ≤ a.2)) a c := by
    intro a b c hab hbc
    exact decide_eq_true (le_trans (of_decide_eq_true hbc) (of_decide_eq_true hab))
  have htotal : ∀ a b : String × ℚ,
      ((fun a b : String × ℚ => decide (b.2 ≤ a.2)) a b ||
        (fun a b : String × ℚ => decide (b.2 ≤ a.2)) b a) := by
    intro a b
    simp only [Bool.or_eq_true, decide_eq_true_eq]
    exact le_total b.2 a.2
  refine ⟨?_, ?_, ?_, ?_, ?_⟩
  · intro e he
    simp only [prioritize_positions, List.mem_mergeSort] at he
    obtain ⟨pt, _, rfl⟩ := List.mem_map.mp he
    exact hscore pt
  · simp only [prioritize_positions]
    exact List.mergeSort_perm _ _
  · have hs := List.sorted_mergeSort htrans htotal
      (target.map (gapScore counts weights))
    exact hs.imp (fun h => of_decide_eq_true h)
  · intro pt hpt hgap
    simp only [prioritize_positions, List.mem_mergeSort]
    refine List.mem_map.mpr ⟨pt, hpt, ?_⟩
    simp only [gapScore, max_eq_left hgap, Int.cast_zero, zero_mul]
  · intro s
    refine List.sublist_mergeSort htrans htotal ?_ (List.filter_sublist _)
    apply List.pairwise_of_forall_mem_list
    intro a ha b hb
    have ha2 : a.2 = s := of_decide_eq_true (List.mem_filter.mp ha).2
    have hb2 : b.2 = s := of_decide_eq_true (List.mem_filter.mp hb).2
    exact decide_eq_true (by rw [ha2, hb2])

/-- Witness for the amended C7 at a concrete configuration. -/
theorem prioritize_positions_spec_witness :
    (∀ e ∈ prioritize_positions c7Counts c7Target c7Weights, 0 ≤ e.2) ∧
    (prioritize_positions c7Counts c7Target c7Weights).Perm
      (c7Target.map (gapScore c7Counts c7Weights)) ∧
    (prioritize_positions c7Counts c7Target c7Weights).Pairwise
      (fun a b => b.2 ≤ a.2) ∧
    (∀ pt ∈ c7Target, pt.2 - dictGetD c7Counts pt.1 0 ≤ 0 →
      (pt.1, (0 : ℚ)) ∈ prioritize_positions c7Counts c7Target c7Weights) ∧
    (∀ s : ℚ, ((c7Target.map (gapScore c7Counts c7Weights)).filter
      (fun e => decide (e.2 = s))).Sublist
        (prioritize_positions c7Counts c7Target c7Weights)) :=
  prioritize_positions_spec c7Counts c7Target c7Weights (by decide)

/-- C5 counterexample: with the filled-position set non-empty but no available
player at a filled position, the drain strategy falls back to the entire pool
and returns a player whose position is not in the filled set. -/
theorem suggest_nominations_drain_fallback_cex :
    positionsFilled [("QB", 1)] [("QB", 1)] ≠ [] ∧
    c5RbRow ∈ suggest_nominations_drain [c5RbRow] [("QB", 1)] [("QB", 1)] 1 ∧
    c5RbRow.position ∉ positionsFilled [("QB", 1)] [("QB", 1)] := by
  decide

/-- C5 amended: whenever the available pool restricted to filled positions is
non-empty, the drain strategy returns only players whose position is in the
filled-position set. -/
theorem suggest_nominations_drain_filled_only (pool : List PoolRow)
    (counts target : List (String × ℤ)) (maxS : Nat)
    (h : pool.filter (fun q => (positionsFilled counts target).contains q.position) ≠ []) :
    ∀ p ∈ suggest_nominations_drain pool counts target maxS,
      p.position ∈ positionsFilled counts target := by
  intro p hp
  have hie : (pool.filter
      (fun q => (positionsFilled counts target).contains q.position)).isEmpty = false := by
    cases hie2 : (pool.filter
        (fun q => (positionsFilled counts target).contains q.position)).isEmpty with
    | false => rfl
    | true => exact absurd (List.isEmpty_iff.mp hie2) h
  have heq : suggest_nominations_drain pool counts target maxS =
      (pool.filter
        (fun q => (positionsFilled counts target).contains q.position)).take maxS := by
    simp only [suggest_nominations_drain]
    rw [hie]
    rfl
  rw [heq] at hp
  exact List.elem_iff.mp
    (List.mem_filter.mp ((List.take_sublist _ _).subset hp)).2

/-- Witness for the amended C5: a quarterback pool with the quarterback slot
already filled yields only quarterbacks. -/
theorem suggest_nominations_drain_filled_only_witness :
    c5QbRow.position ∈ positionsFilled [("QB", 1)] [("QB", 1)] :=
  suggest_nominations_drain_filled_only [c5QbRow] [("QB", 1)] [("QB", 1)] 1 (by decide)
    c5QbRow (by decide)

/-- C6 counterexample: with no low-priority position the candidate slice is
empty, the decoy strategy samples from the fallback pool, and the sample is
larger than min(requested max, candidate slice size) and drawn outside the
slice. -/
theorem suggest_nominations_decoy_fallback_cex :
    suggest_nominations_decoy [c6Row] [("RB", 1)] 1 [c6Row] ∧
    ¬ (([c6Row] : List PoolRow).length ≤
        min 1 (decoyCandidates [c6Row] [("RB", 1)]).length) := by
  have hdp : decoyPositions [("RB", (1 : ℚ))] = [] := by
    simp only [decoyPositions]
    norm_num
  have hcand : decoyCandidates [c6Row] [("RB", (1 : ℚ))] = [] := by
    simp only [decoyCandidates]
    rw [hdp]
    decide
  have hpool : decoyPool [c6Row] [("RB", (1 : ℚ))] = [c6Row] := by
    simp only [decoyPool, hcand]
    decide
  constructor
  · refine ⟨?_, [c6Row], ?_, List.Perm.refl _⟩
    · rw [hpool]
      decide
    · rw [hpool]
  · rw [hcand]
    decide

/-- C6 amended: whenever the candidate slice (available players at positions
scoring below 0.5, truncated to the first 100) is non-empty, every decoy
sample has size at most min(requested max, slice size) and is drawn entirely
from the slice. -/
theorem suggest_nominations_decoy_candidates_only (pool : List PoolRow)
    (priority : List (String × ℚ)) (maxS : Nat) (s : List PoolRow)
    (hc : decoyCandidates pool priority ≠ [])
    (hs : suggest_nominations_decoy pool priority maxS s) :
    s.length ≤ min maxS (decoyCandidates pool priority).length ∧
      ∀ x ∈ s, x ∈ decoyCandidates pool priority := by
  have hie : (decoyCandidates pool priority).isEmpty = false := by
    cases hie2 : (decoyCandidates pool priority).isEmpty with
    | false => rfl
    | true => exact absurd (List.isEmpty_iff.mp hie2) hc
  have hpool : decoyPool pool priority = decoyCandidates pool priority := by
    simp only [decoyPool]
    rw [hie]
    rfl
  obtain ⟨hlen, t, hsub, hperm⟩ := hs
  rw [hpool] at hlen hsub
  refine ⟨le_of_eq hlen, ?_⟩
  intro x hx
  exact hsub.subset (hperm.subset hx)

/-- Witness for the amended C6: a low-priority running back is sampled from a
one-element candidate slice. -/
theorem suggest_nominations_decoy_candidates_only_witness :
    ([c6Row] : List PoolRow).length ≤
        min 1 (decoyCandidates [c6Row] [("RB", 0)]).length ∧
      ∀ x ∈ ([c6Row] : List PoolRow), x ∈ decoyCandidates [c6Row] [("RB", 0)] := by
  have h0 : (0 : ℚ) < 1 / 2 := by norm_num
  have hdp : decoyPositions [("RB", (0 : ℚ))] = ["RB"] := by
    simp [decoyPositions, h0]
  have hcand : decoyCandidates [c6Row] [("RB", (0 : ℚ))] = [c6Row] := by
    simp only [decoyCandidates]
    rw [hdp]
    decide
  have hpool : decoyPool [c6Row] [("RB", (0 : ℚ))] = [c6Row] := by
    simp only [decoyPool, hcand]
    decide
  refine suggest_nominations_decoy_candidates_only [c6Row] [("RB", 0)] 1 [c6Row]
    (by rw [hcand]; decide) ⟨?_, [c6Row], ?_, List.Perm.refl _⟩
  · rw [hpool]
    decide
  · rw [hpool]

/-- C3 counterexample: a raw row whose position string holds no uppercase
letter survives `load_player_pool` with an undefined position instead of being
excluded, because `dropna` is applied to the Player column only. -/
theorem load_player_pool_keeps_undefined_position :
    ((load_player_pool [c3RawRow]).all (fun r => r.position.isSome)) = false := by
  decide

/-- C3 amended: pool normalization excludes exactly the records whose player
name is missing; a record with a defined player name is kept — with an
undefined position when its raw position string holds no uppercase letter. -/
theorem load_player_pool_excludes_only_missing_names (rows : List RawPoolRow)
    (row : RawPoolRow) (hmem : row ∈ rows) (hname : row.playerName.isSome) :
    normalizeRow row ∈ load_player_pool rows ∧
      ∀ r ∈ load_player_pool rows, r.player.isSome := by
  constructor
  · exact List.mem_filter.mpr ⟨List.mem_map.mpr ⟨row, hmem, rfl⟩, hname⟩
  · intro r hr
    exact (List.mem_filter.mp hr).2

/-- Witness for the amended C3: the letterless-position row is kept. -/
theorem load_player_pool_excludes_only_missing_names_witness :
    normalizeRow c3RawRow ∈ load_player_pool [c3RawRow] ∧
      ∀ r ∈ load_player_pool [c3RawRow], r.player.isSome :=
  load_player_pool_excludes_only_missing_names [c3RawRow] c3RawRow (by decide) (by decide)

/-- C1: `summarize_opponents` does not degrade gracefully on an empty ledger,
nor on a ledger whose every pick belongs to the caller: in both cases the
summary list is empty and sorting the column-less empty frame raises a
`KeyError` instead of returning an empty summary. -/
theorem summarize_opponents_raises_on_empty :
    (summarize_opponents [] "Me" 200).2 = Except.error "KeyError: Remaining" ∧
    (summarize_opponents [c1Row] "Me" 200).2 = Except.error "KeyError: Remaining" := by
  have hm0 : sortedManagers [] = [] := by
    have h0 : (([] : List String).eraseDups) = ([] : List String) := by decide
    simp [sortedManagers, h0]
  have hm1 : sortedManagers [c1Row] = ["Me"] := by
    have he : ([c1Row.draftedBy] : List String).eraseDups = ["Me"] := by decide
    simp [sortedManagers, he]
  constructor
  · simp only [summarize_opponents, hm0]
    rfl
  · simp only [summarize_opponents, hm1]
    rfl

/-- C2: `summarize_opponents` mutates its input ledger: the in-place Price
coercion turns the unparseable price "abc" into NaN, so the post-call ledger
differs from the input snapshot. -/
theorem summarize_opponents_mutates_ledger :
    (summarize_opponents [c2Row] "Me" 200).1 = [⟨"Al Pha", "RB", Cell.nan, "X"⟩] ∧
    (summarize_opponents [c2Row] "Me" 200).1 ≠ [c2Row] := by
  constructor
  · decide
  · decide

end FFDraft
